import Mathlib

/-!
Shallow embedding of the `tcp_communication` repository's core: the
recording-session controller (`src/agi_logger/logging_manager.py`), its
command builder, metadata writer and persisted-state store, the packaged
TCP transfer endpoints (`src/agi_logger/tcp_transfer.py`), the standalone
transfer scripts (`src/file_server.py`, `src/file_client.py`), and the CLI
gate (`src/agi_logger/cli.py`).

Modelling conventions:
- Python strings on the wire are `List Char`; byte payloads are `List Nat`.
- Python exceptions become `Except`/`Option` results; an early `raise` is an
  `.error` result produced before the effects that follow it in the source.
- The process table and filesystem are explicit oracles (`live : Int → Bool`
  for `os.kill` probes, `qosExists : String → Bool` for `Path.exists`).
- `time.time()` / float-valued config numbers are modelled as `Int`; the
  claims never exercise their fractional parts (noted at each use).
-/

namespace AgiLogger

/-! ### Python string and integer-literal semantics

`file_client.py`/`tcp_transfer.py` call `int(...)` on a substring of the
received metadata, and `logging_manager.py` calls `.strip()` on the
configured name suffix.  The definitions below model CPython's behaviour
for ASCII input: `int(s)` tolerates surrounding whitespace, one optional
sign, and single underscores between digits.  (CPython additionally accepts
non-ASCII decimal digits and Unicode whitespace; the model is restricted to
ASCII, which is all the claims exercise.) -/

/-- ASCII whitespace accepted by Python's `str.strip()` and `int()`. -/
def isPySpace (c : Char) : Bool :=
  c = ' ' || c = '\t' || c = '\n' || c = '\r' || c = '\x0b' || c = '\x0c'

/-- Numeric value of an ASCII digit character. -/
def digitVal (c : Char) : Nat := c.toNat - 48

/-- The ASCII digit character for `d % 10` (used by decimal rendering). -/
def digitChar : Nat → Char
  | 0 => '0' | 1 => '1' | 2 => '2' | 3 => '3' | 4 => '4'
  | 5 => '5' | 6 => '6' | 7 => '7' | 8 => '8' | _ => '9'

/-- Value of a digit string read left to right, base 10. -/
def digitsVal (l : List Char) : Nat :=
  l.foldl (fun acc c => acc * 10 + digitVal c) 0

/-- Decimal rendering of a natural number, as Python's `str(n)` /
f-string formatting produces for a non-negative `int`. -/
def natToDigits (n : Nat) : List Char :=
  if n < 10 then [digitChar n] else natToDigits (n / 10) ++ [digitChar (n % 10)]
termination_by n
decreasing_by exact Nat.div_lt_self (by omega) (by omega)

/-- Tail of Python's integer-literal digit grammar: digits with single
underscores allowed only between two digits. -/
def pyDigitsRest : List Char → Bool
  | [] => true
  | [c] => if c = '_' then false else c.isDigit
  | c :: d :: rest =>
    if c = '_' then d.isDigit && pyDigitsRest rest
    else c.isDigit && pyDigitsRest (d :: rest)

/-- Python's integer-literal digit grammar: non-empty, starts with a digit,
single underscores only between digits. -/
def pyDigits : List Char → Bool
  | [] => false
  | c :: rest => c.isDigit && pyDigitsRest rest

/-- Digit-part conversion used by `int()`: validates the grammar, then reads
the digits with underscores removed. -/
def pyIntCore (l : List Char) : Option Nat :=
  if pyDigits l then some (digitsVal (l.filter (fun c => c != '_'))) else none

/-- Python `str.strip()` on ASCII input: drop whitespace from both ends. -/
def pyStripChars (s : List Char) : List Char :=
  ((s.dropWhile isPySpace).reverse.dropWhile isPySpace).reverse

/-- Python `int(s)` on ASCII input: strip whitespace, one optional sign,
then the digit grammar; `none` models the `ValueError` raise. -/
def pyInt (s : List Char) : Option Int :=
  match pyStripChars s with
  | [] => none
  | c :: rest =>
    if c = '+' then (pyIntCore rest).map (fun n => (n : Int))
    else if c = '-' then (pyIntCore rest).map (fun n => -(n : Int))
    else (pyIntCore (c :: rest)).map (fun n => (n : Int))

/-- Python `s.split(":")`: splits on every colon, keeping empty pieces, and
yields one piece even for the empty string. -/
def splitOnColon : List Char → List (List Char)
  | [] => [[]]
  | c :: rest =>
    if c = ':' then [] :: splitOnColon rest
    else
      match splitOnColon rest with
      | [] => [[c]]
      | g :: gs => (c :: g) :: gs

/-- Python `str.strip()` packaged for `String` values
(`logging_manager.start_recording`'s name suffix). -/
def pyStrip (s : String) : String := String.mk (pyStripChars s.toList)

/-! ### JSON values and the persisted state store

`logging_manager.py` persists the active session as a JSON object in
`~/.agi_logger/recording_state.json` and reads it back with
`json.loads` inside a `try`/`except` that converts every failure to
`None`.  JSON numbers are modelled as `Int` (the only float field,
`start_time`, is never inspected numerically by any claim). -/

inductive Json where
  | jnull
  | jbool (b : Bool)
  | jnum (n : Int)
  | jstr (s : String)
  | jarr (items : List Json)
  | jobj (fields : List (String × Json))

/-- Identity of the one active session (`RecordingState` dataclass). -/
structure RecordingState where
  pid : Int
  bag_name : String
  bag_path : String
  start_time : Int
  command : List String
deriving DecidableEq

/-- Dictionary lookup `data[key]`; `none` models the `KeyError` raise.
(For duplicate keys `json.loads` keeps the last occurrence; records the
program writes never duplicate keys, so first-match lookup is used.) -/
def jlookup (fields : List (String × Json)) (key : String) : Option Json :=
  (fields.find? (fun p => p.1 == key)).map (fun p => p.2)

/-- Python `int(x)` on a JSON-decoded value: numbers and booleans convert,
strings go through the integer-literal parse, everything else raises. -/
def pyIntOfJson : Json → Option Int
  | .jnum n => some n
  | .jbool b => some (if b then 1 else 0)
  | .jstr s => pyInt s.toList
  | _ => none

/-- String-valued field of a decoded record.  Model restriction: the source
assigns `data["bag_name"]` / `data["bag_path"]` with no conversion, so a
non-string JSON value would be stored as-is; the model only decodes the
shapes `_write_state` itself produces and treats other shapes as decode
failures (which `read()` degrades to "absent" either way). -/
def asStr : Json → Option String
  | .jstr s => some s
  | _ => none

/-- Numeric field via Python `float(x)`: numbers and booleans convert.
Model restriction: `float` also parses numeric strings; no claim exercises
string-encoded floats, so those shapes are treated as decode failures. -/
def asNum : Json → Option Int
  | .jnum n => some n
  | .jbool b => some (if b then 1 else 0)
  | _ => none

/-- `list(data["command"])` where the record's command is a JSON array of
strings.  Model restriction: Python's `list()` accepts any iterable and
does not check element types; the model only decodes arrays of strings
(the shape `_write_state` produces). -/
def asStrList : Json → Option (List String)
  | .jarr items => items.mapM asStr
  | _ => none

/-- Field extraction of `_read_state`'s `try` body: any missing key or
failing conversion is a raised exception, modelled as `none`. -/
def decodeState (j : Json) : Option RecordingState := do
  let fields ← match j with
    | .jobj f => some f
    | _ => none
  let pid ← pyIntOfJson (← jlookup fields "pid")
  let bag_name ← asStr (← jlookup fields "bag_name")
  let bag_path ← asStr (← jlookup fields "bag_path")
  let start_time ← asNum (← jlookup fields "start_time")
  let command ← asStrList (← jlookup fields "command")
  pure ⟨pid, bag_name, bag_path, start_time, command⟩

/-- Persisted file content: either text that `json.loads` rejects, or a
parsed JSON value. -/
inductive FileText where
  | unparseable (raw : String)
  | parsed (j : Json)

/-- The state store: `none` is a missing `recording_state.json`. -/
abbrev StoreFile := Option FileText

/-- Body of `_read_state`'s `try` block: `json.loads` then field decoding;
`.error` is a raised exception. -/
def loadAndDecode : FileText → Except Unit RecordingState
  | .unparseable _ => .error ()
  | .parsed j =>
    match decodeState j with
    | some s => .ok s
    | none => .error ()

/-- `RecorderManager._read_state`: absent file gives `None`; the `except`
clause converts every decode failure to `None`. -/
def read_state : StoreFile → Option RecordingState
  | none => none
  | some t =>
    match loadAndDecode t with
    | .ok s => some s
    | .error _ => none

/-- `RecorderManager._clear_state`: unlink the file if present. -/
def clear_state (_ : StoreFile) : StoreFile := none

/-- The JSON payload `_write_state` serializes. -/
def stateToJson (s : RecordingState) : Json :=
  .jobj [("pid", .jnum s.pid),
         ("bag_name", .jstr s.bag_name),
         ("bag_path", .jstr s.bag_path),
         ("start_time", .jnum s.start_time),
         ("command", .jarr (s.command.map Json.jstr))]

/-- `RecorderManager._write_state`: replace the store with the record. -/
def write_state (s : RecordingState) : StoreFile := some (.parsed (stateToJson s))

/-- `RecorderManager.is_recording`: read the store; if absent (or
undecodable) report `False`; otherwise probe the recorded pid with
`os.kill(pid, 0)` (the oracle `live`) and clear the store when the probe
raises `OSError`.  Returns the flag together with the store it leaves. -/
def is_recording (store : StoreFile) (live : Int → Bool) : Bool × StoreFile :=
  match read_state store with
  | none => (false, store)
  | some s => if live s.pid then (true, store) else (false, clear_state store)

/-! ### Resolved settings and the command builder -/

/-- The resolved logger settings consumed by `RecorderManager`
(`resolve_logger_paths` output).  Model restrictions: `duration` and
`max_bag_size` are floats in the source and keys may be missing (the code
reads them with `.get(..., 0) or 0` / `.get(..., False)` defaults); the
model carries the resolved values directly, with `Int` for the two
numeric limits — the claims only exercise their sign tests. -/
structure Settings where
  topics : List String
  bag_path : String
  name : String
  mcap : Bool
  compress : Bool
  override_qos : Bool
  qos_settings : Option String
  duration : Int
  max_bag_size : Int
deriving DecidableEq

/-- Recorder errors (`RuntimeError` raises in `logging_manager.py`). -/
inductive RecorderError where
  | alreadyActive
  | noActiveSession
  | launchFailed
  | configuration
deriving DecidableEq

/-- The compression flags `_build_command` appends. -/
def compressionFlags : List String :=
  ["--compression-mode", "file", "--compression-format", "zstd"]

/-- Storage/compression section of `_build_command`: compression flags are
only appended inside the `mcap` branch, after the storage flags. -/
def storageFlags (cfg : Settings) : List String :=
  if cfg.mcap then
    ["--storage", "mcap"] ++ (if cfg.compress then compressionFlags else [])
  else []

/-- QoS section of `_build_command`: appended only when the override is
enabled, the configured path is truthy, and the file exists on disk
(`qosExists` oracle); silently omitted otherwise. -/
def qosFlags (cfg : Settings) (qosExists : String → Bool) : List String :=
  if cfg.override_qos then
    match cfg.qos_settings with
    | some f => if (f != "") && qosExists f then ["--qos-profile-overrides-path", f] else []
    | none => []
  else []

/-- Size-limit section of `_build_command`: gigabytes-to-bytes with
1024³, rendered as a decimal integer. -/
def sizeFlags (cfg : Settings) : List String :=
  if cfg.max_bag_size > 0 then
    ["--max-bag-size", toString (cfg.max_bag_size * 1024 * 1024 * 1024)]
  else []

/-- `RecorderManager._build_command`: raises on an empty topic list, then
appends the base invocation, storage/compression flags, QoS flags, size
flags, and finally the topics — in exactly the source's `cmd +=` order. -/
def build_command (cfg : Settings) (qosExists : String → Bool) (full_bag_path : String) :
    Except RecorderError (List String) :=
  if cfg.topics = [] then .error .configuration
  else .ok (["ros2", "bag", "record", "-o", full_bag_path]
      ++ storageFlags cfg ++ qosFlags cfg qosExists ++ sizeFlags cfg ++ cfg.topics)

/-! ### Metadata writer -/

/-- Environment facts the metadata writer interpolates (wall-clock time,
`os.uname()`, `getpass.getuser()`, `ROS_DISTRO`); opaque inputs here. -/
structure EnvInfo where
  date : String
  hostname : String
  user : String
  ros_distro : String
  kernel : String
  now : Int

/-- One manifest line `label` + interpolated value, as `List Char` so that
the recorded-topics extraction can be reasoned about per character. -/
def mline (label : String) (v : String) : List Char := label.toList ++ v.toList

/-- The literal `topics:` header line of the manifest. -/
def topicsMarker : List Char := "topics:".toList

/-- The `"  - "` indent the manifest puts before each topic. -/
def topicIndent : List Char := "  - ".toList

/-- The lines `_write_metadata` joins with newlines, in source order.
(The model keeps the manifest as a line list; topics containing a newline
would garble the joined file, an edge no claim exercises.) -/
def metadataLines (cfg : Settings) (env : EnvInfo) (s : RecordingState) : List (List Char) :=
  [mline "bag_name: " s.bag_name,
   mline "bag_path: " cfg.bag_path,
   mline "date: " env.date,
   mline "hostname: " env.hostname,
   mline "user: " env.user,
   mline "ros_distro: " env.ros_distro,
   mline "kernel: " env.kernel,
   topicsMarker]
  ++ cfg.topics.map (fun t => topicIndent ++ t.toList)
  ++ [mline "storage: " (if cfg.mcap then "MCAP" else "default"),
      mline "compression: " (if cfg.compress then "enabled" else "disabled"),
      mline "max_bag_size: " (toString cfg.max_bag_size ++ " GB"),
      mline "duration: " (toString cfg.duration ++ " minutes"),
      mline "qos_override_file: " (cfg.qos_settings.getD "none")]

/-- `pathlib` `/` join as the code uses it (`Path(bag_path) / name`). -/
def pathJoin (a b : String) : String := if a = "" then b else a ++ "/" ++ b

/-- `RecorderManager._write_metadata`: the manifest file written beside the
artifact, as a (path, lines) pair. -/
def write_metadata (cfg : Settings) (env : EnvInfo) (s : RecordingState) :
    String × List (List Char) :=
  (pathJoin s.bag_path "metadata.txt", metadataLines cfg env s)

/-- Topic list a reader recovers from a manifest: the lines after the
`topics:` header that carry the `"  - "` indent, with the indent dropped. -/
def extractTopics (lines : List (List Char)) : List (List Char) :=
  (((lines.dropWhile (fun l => l != topicsMarker)).drop 1).takeWhile
      (fun l => topicIndent.isPrefixOf l)).map (fun l => l.drop 4)

/-! ### Session controller: start and stop -/

/-- Outcome of one `start_recording` call: the returned state or raised
error, the store left behind, the manifest files written, whether an
external process launch was attempted, and whether the duration timer was
scheduled. -/
structure StartRun where
  result : Except RecorderError RecordingState
  store : StoreFile
  manifests : List (String × List (List Char))
  launched : Bool
  timerScheduled : Bool

/-- `RecorderManager.start_recording`.  Oracles: `live` backs the entry
`is_recording` probe, `qosExists` the QoS-file check, `timestamp` the
generated `%Y%m%d_%H%M%S` stamp, `newPid` the spawned pid, and
`exitsDuringGrace` whether `process.poll()` reports an exit within the
0.5 s grace sleep.  The attached (`foreground`) branch runs the recorder
synchronously (opaque here), then unconditionally writes the manifest with
a synthetic pid 0 and never touches the store; the detached branch
persists the state, fails with `LaunchFailedError` on an early exit, and
schedules the auto-stop timer only for a positive duration. -/
def start_recording (cfg : Settings) (env : EnvInfo) (store : StoreFile)
    (live : Int → Bool) (qosExists : String → Bool) (timestamp : String)
    (foreground : Bool) (newPid : Int) (exitsDuringGrace : Bool) : StartRun :=
  let probe := is_recording store live
  if probe.1 then ⟨.error .alreadyActive, probe.2, [], false, false⟩
  else
    let base_name := "agi_log_" ++ timestamp
    let extra := pyStrip cfg.name
    let bag_name := if extra = "" then base_name else base_name ++ "_" ++ extra
    let full_bag_path := pathJoin cfg.bag_path bag_name
    match build_command cfg qosExists full_bag_path with
    | .error e => ⟨.error e, probe.2, [], false, false⟩
    | .ok cmd =>
      if foreground then
        let st : RecordingState := ⟨0, bag_name, full_bag_path, env.now, cmd⟩
        ⟨.ok st, probe.2, [write_metadata cfg env st], true, false⟩
      else
        let st : RecordingState := ⟨newPid, bag_name, full_bag_path, env.now, cmd⟩
        if exitsDuringGrace then ⟨.error .launchFailed, clear_state (write_state st), [], true, false⟩
        else ⟨.ok st, write_state st, [], true, cfg.duration > 0⟩

/-- The bounded wait of `stop_recording`: up to `fuel` polls of
`is_recording`, half a second apart, against a time-indexed liveness
oracle; stops early once the probe reports inactive.  Returns the store
the polling leaves (the probe may clear a record whose process died). -/
def pollLoop : Nat → Nat → StoreFile → (Nat → Int → Bool) → StoreFile
  | 0, _, store, _ => store
  | fuel + 1, t, store, liveAt =>
    let probe := is_recording store (liveAt t)
    if probe.1 then pollLoop fuel (t + 1) probe.2 liveAt else probe.2

/-- Outcome of one `stop_recording` call. -/
structure StopRun where
  result : Except RecorderError Unit
  store : StoreFile
  manifests : List (String × List (List Char))

/-- `RecorderManager.stop_recording`.  Raises `NoActiveSessionError` when
the store holds no decodable record.  Otherwise sends SIGINT to the
recorded pid (`liveAt 0` decides whether the process still exists): if the
signal raises `OSError` the session is treated as already stopped — clear
the store and return with no manifest; if delivery succeeds, poll
`is_recording` up to 60 times, then write the manifest from the record
read at entry and clear the store (a poll timeout is not an error). -/
def stop_recording (cfg : Settings) (env : EnvInfo) (store : StoreFile)
    (liveAt : Nat → Int → Bool) : StopRun :=
  match read_state store with
  | none => ⟨.error .noActiveSession, store, []⟩
  | some s =>
    if liveAt 0 s.pid then
      let store1 := pollLoop 60 1 store liveAt
      ⟨.ok (), clear_state store1, [write_metadata cfg env s]⟩
    else ⟨.ok (), clear_state store, []⟩

/-! ### Transfer endpoints (`agi_logger/tcp_transfer.py`)

The sender serves a sequence of accepted connections; each connection is
modelled by the acknowledgment string the client sends back.  The receiver
is driven by the metadata line of its first `recv` and by the sequence of
payload segments later `recv` calls return (TCP may re-segment the
sender's writes; an empty segment models the peer closing).  The `READY`
handshake serializes metadata and payload, so the metadata line arrives
alone. -/

/-- A source file as the sender sees it: `Path.name` and contents. -/
structure SrcFile where
  name : List Char
  content : List Nat

/-- The sender's chunk size (`BUFFER_SIZE = 1024 * 32`). -/
def BUFFER_SIZE : Nat := 1024 * 32

/-- Splitting a byte list into chunks of at most `n` bytes, as the
`while chunk := handle.read(n)` loop produces. -/
def chunksOf (n : Nat) (l : List Nat) : List (List Nat) :=
  if h : n = 0 ∨ l = [] then [] else l.take n :: chunksOf n (l.drop n)
termination_by l.length
decreasing_by
  push_neg at h
  have hpos : 0 < l.length := List.length_pos.mpr h.2
  simp only [List.length_drop]
  omega

/-- The metadata line `f"{file_path.name}:{file_size}"`. -/
def sendMetadata (name : List Char) (content : List Nat) : List Char :=
  name ++ ':' :: natToDigits content.length

/-- What the packaged sender does on one accepted connection. -/
structure ConnTrace where
  metadataSent : List Char
  payload : List (List Nat)

/-- Network-level actions, to witness that a gate fires before any socket
is opened. -/
inductive NetEvent where
  | listening
  | connected
deriving DecidableEq

/-- Error raised by `tcp_transfer.send_file` (`TcpTransferError`). -/
inductive TcpError where
  | fileNotFound
deriving DecidableEq

/-- One iteration of `send_file`'s accept loop: send the metadata line,
wait for the acknowledgment, and stream the file in `BUFFER_SIZE` chunks
only if the acknowledgment is exactly `READY` (anything else disconnects
and the loop continues with the next client). -/
def handleConn (f : SrcFile) (ack : List Char) : ConnTrace :=
  ⟨sendMetadata f.name f.content,
   if ack = "READY".toList then chunksOf BUFFER_SIZE f.content else []⟩

/-- `tcp_transfer.send_file`: raises `TcpTransferError` before binding any
socket when the configured source file is absent; otherwise binds, listens
(the `listening` event) and serves every accepted connection in turn. -/
def send_file (file : Option SrcFile) (conns : List (List Char)) :
    List NetEvent × Except TcpError (List ConnTrace) :=
  match file with
  | none => ([], .error .fileNotFound)
  | some f => ([.listening], .ok (conns.map (handleConn f)))

/-- The receiver's read loop: `while received < file_size`, one `recv` per
iteration, breaking on an empty segment, accumulating everything read. -/
def recvLoop (size received : Int) : List (List Nat) → List Nat
  | [] => []
  | c :: rest =>
    if received < size then
      if c.isEmpty then [] else c ++ recvLoop size (received + c.length) rest
    else []

/-- Errors the receiver can raise: the protocol-level `TcpTransferError` on
an `ERROR...` metadata line, or Python's `ValueError` from the tuple
unpacking of `split(":")` / from `int()`. -/
inductive RecvError where
  | transferError (msg : List Char)
  | valueError
deriving DecidableEq

/-- Observable outcome of one `receive_file` call: whether `READY` was
sent, the destination file created (name and bytes), and the result.
(The destination directory is created before the socket is even opened;
the claims speak of the destination file, which only the success branch
creates.) -/
structure RecvResult where
  readySent : Bool
  fileWritten : Option (List Char × List Nat)
  outcome : Except RecvError Unit

/-- `tcp_transfer.receive_file`: check for an `ERROR` metadata line, split
on `:`, convert the size with `int()`, send `READY`, then read until the
declared count is reached or the peer closes, writing what arrived. -/
def receive_file (metadata : List Char) (stream : List (List Nat)) : RecvResult :=
  if "ERROR".toList.isPrefixOf metadata then
    ⟨false, none, .error (.transferError metadata)⟩
  else
    match splitOnColon metadata with
    | [fileName, sizeStr] =>
      match pyInt sizeStr with
      | some size => ⟨true, some (fileName, recvLoop size 0 stream), .ok ()⟩
      | none => ⟨false, none, .error .valueError⟩
    | _ => ⟨false, none, .error .valueError⟩

/-- Whether a metadata line survives the receiver's parse: exactly one
colon-split into two pieces whose second piece `int()` accepts. -/
def wellFormedMeta (metadata : List Char) : Bool :=
  match splitOnColon metadata with
  | [_, sizeStr] => (pyInt sizeStr).isSome
  | _ => false

/-! ### Standalone scripts (`file_server.py`, `file_client.py`) -/

/-- The standalone sender's chunk size (`f.read(1024)`). -/
def FS_BUFFER : Nat := 1024

/-- The error string `file_server.py` sends when the file is missing. -/
def fsErrorText : List Char := "ERROR: File not found.".toList

/-- What the standalone sender does on one accepted connection. -/
structure FsConnTrace where
  errorSent : Option (List Char)
  metadataSent : Option (List Char)
  payload : List (List Nat)
  closed : Bool
deriving DecidableEq

/-- One iteration of `file_server.send_file`'s accept loop: the existence
check happens per connection; a missing file sends the error string and
continues with the next client (the `finally` closes the connection
either way); otherwise metadata, acknowledgment wait, and 1024-byte
streaming on `READY`. -/
def fs_handleConn (file : Option SrcFile) (ack : List Char) : FsConnTrace :=
  match file with
  | none => ⟨some fsErrorText, none, [], true⟩
  | some f =>
    ⟨none, some (sendMetadata f.name f.content),
     if ack = "READY".toList then chunksOf FS_BUFFER f.content else [], true⟩

/-- `file_server.send_file`: binds and listens unconditionally, then
serves every accepted connection, re-checking the file each time. -/
def fs_send_file (file : Option SrcFile) (conns : List (List Char)) : List FsConnTrace :=
  conns.map (fs_handleConn file)

/-- Outcome of `file_client.receive_file`: unlike the packaged receiver it
returns silently (after printing) on an `ERROR` metadata line; parse
failures still raise `ValueError` (`.error`). -/
structure FcResult where
  readySent : Bool
  fileWritten : Option (List Char × List Nat)
  outcome : Except Unit Unit

/-- `file_client.receive_file`: same parse-then-`READY`-then-stream shape
as the packaged receiver, with the `ERROR` branch returning normally. -/
def fc_receive_file (metadata : List Char) (stream : List (List Nat)) : FcResult :=
  if "ERROR".toList.isPrefixOf metadata then ⟨false, none, .ok ()⟩
  else
    match splitOnColon metadata with
    | [fileName, sizeStr] =>
      match pyInt sizeStr with
      | some size => ⟨true, some (fileName, recvLoop size 0 stream), .ok ()⟩
      | none => ⟨false, none, .error ()⟩
    | _ => ⟨false, none, .error ()⟩

/-! ### CLI transfer gate (`agi_logger/cli.py`) -/

/-- Errors surfaced by the CLI transfer commands. -/
inductive CliError where
  | transferDisabled
  | filePathRequired
  | tcp (e : TcpError)
deriving DecidableEq

/-- `cli._tcp_send`: `_tcp_allowed` raises `TransferDisabledError` whenever
`is_recording()` is true, before the server config is even built; then the
file-path check; only then `send_file` (whose socket activity is the event
list). -/
def tcp_send_cli (store : StoreFile) (live : Int → Bool) (filePath : String)
    (file : Option SrcFile) (conns : List (List Char)) :
    StoreFile × List NetEvent × Except CliError (List ConnTrace) :=
  let probe := is_recording store live
  if probe.1 then (probe.2, [], .error .transferDisabled)
  else if filePath = "" then (probe.2, [], .error .filePathRequired)
  else
    let r := send_file file conns
    (probe.2, r.1, r.2.mapError CliError.tcp)

/-- `cli._tcp_receive`: the same gate, then `receive_file`, which opens
its connecting socket (the `connected` event) before any protocol step. -/
def tcp_receive_cli (store : StoreFile) (live : Int → Bool)
    (metadata : List Char) (stream : List (List Nat)) :
    StoreFile × List NetEvent × Except CliError RecvResult :=
  let probe := is_recording store live
  if probe.1 then (probe.2, [], .error .transferDisabled)
  else (probe.2, [.connected], .ok (receive_file metadata stream))

/-! ### Helper lemmas: decimal rendering and Python `int()` parsing -/

theorem digitChar_isDigit (d : Nat) : (digitChar d).isDigit = true := by
  unfold digitChar
  split <;> decide

theorem ne_of_isDigit (c x : Char) (hx : x.isDigit = false) (h : c.isDigit = true) : c ≠ x := by
  intro e
  subst e
  simp [h] at hx

theorem isPySpace_of_isDigit (c : Char) (h : c.isDigit = true) : isPySpace c = false := by
  unfold isPySpace
  by_contra hb
  simp only [Bool.not_eq_false, Bool.or_eq_true, decide_eq_true_eq] at hb
  rcases hb with ((((e | e) | e) | e) | e) | e <;> (subst e; exact absurd h (by decide))

theorem natToDigits_digits (n : Nat) : ∀ c ∈ natToDigits n, c.isDigit = true := by
  rw [natToDigits]
  split
  · intro c hc
    rw [List.mem_singleton] at hc
    subst hc
    exact digitChar_isDigit n
  · intro c hc
    rw [List.mem_append] at hc
    rcases hc with hc | hc
    · exact natToDigits_digits (n / 10) c hc
    · rw [List.mem_singleton] at hc
      subst hc
      exact digitChar_isDigit _
termination_by n
decreasing_by exact Nat.div_lt_self (by omega) (by omega)

theorem natToDigits_ne_nil (n : Nat) : natToDigits n ≠ [] := by
  rw [natToDigits]
  split <;> simp

theorem digitVal_digitChar (d : Nat) (h : d < 10) : digitVal (digitChar d) = d := by
  interval_cases d <;> decide

theorem digitsVal_append_digit (l : List Char) (c : Char) :
    digitsVal (l ++ [c]) = 10 * digitsVal l + digitVal c := by
  simp only [digitsVal, List.foldl_append, List.foldl_cons, List.foldl_nil]
  omega

theorem natToDigits_val (n : Nat) : digitsVal (natToDigits n) = n := by
  rw [natToDigits]
  split
  · rename_i h
    simp only [digitsVal, List.foldl_cons, List.foldl_nil]
    rw [Nat.zero_mul, Nat.zero_add, digitVal_digitChar n h]
  · rename_i h
    push_neg at h
    rw [digitsVal_append_digit, natToDigits_val (n / 10),
        digitVal_digitChar (n % 10) (Nat.mod_lt n (by omega))]
    omega
termination_by n
decreasing_by exact Nat.div_lt_self (by omega) (by omega)

theorem pyDigitsRest_of_digits : ∀ l : List Char, (∀ c ∈ l, c.isDigit = true) →
    pyDigitsRest l = true
  | [], _ => rfl
  | [c], h => by
    have hc : c.isDigit = true := h c (List.mem_cons_self c [])
    have hne : c ≠ '_' := ne_of_isDigit c '_' (by decide) hc
    simp [pyDigitsRest, if_neg hne, hc]
  | c :: d :: rest, h => by
    have hc : c.isDigit = true := h c (List.mem_cons_self _ _)
    have hne : c ≠ '_' := ne_of_isDigit c '_' (by decide) hc
    have ih := pyDigitsRest_of_digits (d :: rest) (fun x hx => h x (List.mem_cons_of_mem c hx))
    simp [pyDigitsRest, if_neg hne, hc, ih]

theorem pyDigits_of_digits (l : List Char) (hne : l ≠ []) (h : ∀ c ∈ l, c.isDigit = true) :
    pyDigits l = true := by
  cases l with
  | nil => exact absurd rfl hne
  | cons c rest =>
    simp only [pyDigits, h c (List.mem_cons_self c rest), Bool.true_and]
    exact pyDigitsRest_of_digits rest (fun x hx => h x (List.mem_cons_of_mem c hx))

theorem dropWhile_eq_self_of_all (p : Char → Bool) : ∀ l : List Char,
    (∀ c ∈ l, p c = false) → l.dropWhile p = l
  | [], _ => rfl
  | c :: rest, h => by
    rw [List.dropWhile_cons, h c (List.mem_cons_self c rest)]
    simp

theorem pyStripChars_of_no_space (l : List Char) (h : ∀ c ∈ l, isPySpace c = false) :
    pyStripChars l = l := by
  unfold pyStripChars
  rw [dropWhile_eq_self_of_all _ l h,
      dropWhile_eq_self_of_all _ l.reverse (fun c hc => h c (List.mem_reverse.mp hc)),
      List.reverse_reverse]

theorem pyInt_natToDigits (n : Nat) : pyInt (natToDigits n) = some (n : Int) := by
  have hd := natToDigits_digits n
  have hs : pyStripChars (natToDigits n) = natToDigits n :=
    pyStripChars_of_no_space _ (fun c hc => isPySpace_of_isDigit c (hd c hc))
  obtain ⟨c, rest, hne⟩ : ∃ c rest, natToDigits n = c :: rest := by
    cases hcc : natToDigits n with
    | nil => exact absurd hcc (natToDigits_ne_nil n)
    | cons c rest => exact ⟨c, rest, rfl⟩
  have hc : c.isDigit = true := hd c (hne ▸ List.mem_cons_self c rest)
  have hcore : pyIntCore (natToDigits n) = some n := by
    unfold pyIntCore
    rw [if_pos (pyDigits_of_digits _ (natToDigits_ne_nil n) hd)]
    have hfil : (natToDigits n).filter (fun x => x != '_') = natToDigits n :=
      List.filter_eq_self.mpr (fun a ha => by
        rw [bne_iff_ne]
        exact ne_of_isDigit a '_' (by decide) (hd a ha))
    rw [hfil, natToDigits_val]
  unfold pyInt
  rw [hs, hne]
  simp only [if_neg (ne_of_isDigit c '+' (by decide) hc),
             if_neg (ne_of_isDigit c '-' (by decide) hc)]
  rw [← hne, hcore]
  rfl

/-! ### Helper lemmas: colon splitting and the `ERROR` sentinel -/

theorem splitOnColon_no_colon : ∀ l : List Char, ':' ∉ l → splitOnColon l = [l]
  | [], _ => rfl
  | c :: rest, h => by
    have hc : c ≠ ':' := fun e => h (e ▸ List.mem_cons_self c rest)
    have ih := splitOnColon_no_colon rest (fun hx => h (List.mem_cons_of_mem c hx))
    simp only [splitOnColon, if_neg hc, ih]

theorem splitOnColon_sep : ∀ a b : List Char, ':' ∉ a → ':' ∉ b →
    splitOnColon (a ++ ':' :: b) = [a, b]
  | [], b, _, hb => by
    simp [splitOnColon, splitOnColon_no_colon b hb]
  | c :: a, b, ha, hb => by
    have hc : c ≠ ':' := fun e => ha (e ▸ List.mem_cons_self c a)
    have ih := splitOnColon_sep a b (fun hx => ha (List.mem_cons_of_mem c hx)) hb
    simp only [List.cons_append, splitOnColon, if_neg hc, List.append_eq]
    rw [ih]

theorem not_error_prefix_metadata (name ds : List Char)
    (h : ¬ "ERROR".toList <+: name) :
    ("ERROR".toList.isPrefixOf (name ++ ':' :: ds)) = false := by
  rw [Bool.eq_false_iff]
  intro hb
  obtain ⟨t, ht⟩ := List.isPrefixOf_iff_prefix.mp hb
  rcases List.append_eq_append_iff.mp ht with ⟨a2, h1, _⟩ | ⟨c2, h1, h2⟩
  · exact h ⟨a2, h1.symm⟩
  · cases c2 with
    | nil =>
      rw [List.append_nil] at h1
      exact h (h1 ▸ List.prefix_refl "ERROR".toList)
    | cons x c2 =>
      have hx : x = ':' := by
        have h0 := congrArg List.head? h2
        rw [List.cons_append] at h0
        simpa using h0.symm
      subst hx
      have : (':' : Char) ∈ "ERROR".toList := by
        rw [h1]
        exact List.mem_append_right _ (List.mem_cons_self _ _)
      exact absurd this (by decide)

/-! ### Helper lemmas: chunking and the receive loop -/

theorem chunksOf_flatten (n : Nat) (hn : n ≠ 0) (l : List Nat) : (chunksOf n l).flatten = l := by
  rw [chunksOf]
  split
  · rename_i h
    rcases h with h | h
    · exact absurd h hn
    · subst h; rfl
  · rename_i h
    push_neg at h
    obtain ⟨hn2, hl⟩ := h
    have hlt : (l.drop n).length < l.length := by
      have : 0 < l.length := List.length_pos.mpr hl
      simp only [List.length_drop]
      omega
    rw [List.flatten_cons, chunksOf_flatten n hn (l.drop n), List.take_append_drop]
termination_by l.length
decreasing_by exact hlt

theorem chunksOf_mem_ne_nil (n : Nat) (l : List Nat) : ∀ c ∈ chunksOf n l, c ≠ [] := by
  rw [chunksOf]
  split
  · intro c hc
    cases hc
  · rename_i h
    push_neg at h
    obtain ⟨hn, hl⟩ := h
    have hlt : (l.drop n).length < l.length := by
      have : 0 < l.length := List.length_pos.mpr hl
      simp only [List.length_drop]
      omega
    intro c hc
    rcases List.mem_cons.mp hc with rfl | hc
    · intro e
      rcases List.take_eq_nil_iff.mp e with e | e
      · exact hn e
      · exact hl e
    · exact chunksOf_mem_ne_nil n (l.drop n) c hc
termination_by l.length
decreasing_by exact hlt

theorem recvLoop_exact (stream : List (List Nat)) : ∀ received : Int,
    (∀ c ∈ stream, c ≠ []) →
    recvLoop (received + (stream.flatten.length : Int)) received stream = stream.flatten := by
  induction stream with
  | nil =>
    intro r _
    simp [recvLoop]
  | cons c rest ih =>
    intro received h
    have hc : c ≠ [] := h c (List.mem_cons_self c rest)
    have hce : c.isEmpty = false := by
      cases c with
      | nil => exact absurd rfl hc
      | cons a as => rfl
    have hlen : 0 < c.length := List.length_pos.mpr hc
    have harg : received + (((c :: rest).flatten).length : Int) =
        (received + (c.length : Int)) + ((rest.flatten).length : Int) := by
      simp only [List.flatten_cons, List.length_append]
      push_cast
      ring
    have hcond : received < received + (((c :: rest).flatten).length : Int) := by
      simp only [List.flatten_cons, List.length_append]
      omega
    simp only [recvLoop, if_pos hcond, hce, Bool.false_eq_true, if_false, List.flatten_cons]
    rw [show received + (((c ++ rest.flatten).length : Nat) : Int) =
          (received + (c.length : Int)) + ((rest.flatten.length : Nat) : Int) by
        push_cast [List.length_append]
        ring]
    rw [ih (received + (c.length : Int)) (fun x hx => h x (List.mem_cons_of_mem c hx))]
    rw [if_pos (show received < received + (c.length : Int) + ((rest.flatten.length : Nat) : Int) by
          omega)]

/-! ### Helper lemmas: manifest topic extraction -/

theorem append_ne_of_first_char (a v m : List Char) (k : Nat) (hk : k ≤ a.length)
    (h : a.take k ≠ m.take k) : a ++ v ≠ m := by
  intro he
  apply h
  rw [← List.take_append_of_le_length hk, he]

theorem mline_ne_marker (label v : String) (h1 : label.toList.take 1 ≠ topicsMarker.take 1)
    (h2 : 1 ≤ label.toList.length) : mline label v ≠ topicsMarker :=
  append_ne_of_first_char _ _ _ 1 h2 h1

theorem takeWhile_append_stop (p : List Char → Bool) :
    ∀ (l₁ : List (List Char)) (x : List Char) (l₂ : List (List Char)),
    (∀ a ∈ l₁, p a = true) → p x = false →
    (l₁ ++ x :: l₂).takeWhile p = l₁
  | [], x, l₂, _, hx => by
    simp [List.takeWhile_cons, hx]
  | a :: l₁, x, l₂, h, hx => by
    have ha := h a (List.mem_cons_self a l₁)
    simp only [List.cons_append, List.takeWhile_cons, ha, if_true]
    rw [takeWhile_append_stop p l₁ x l₂ (fun b hb => h b (List.mem_cons_of_mem a hb)) hx]

theorem not_topic_line_storage (v : String) :
    topicIndent.isPrefixOf (mline "storage: " v) = false := by
  rw [Bool.eq_false_iff]
  intro hb
  obtain ⟨t, ht⟩ := List.isPrefixOf_iff_prefix.mp hb
  have h0 := congrArg List.head? ht
  have h1 : (some ' ' : Option Char) = some 's' := h0
  exact absurd (Option.some.inj h1) (by decide)

theorem extractTopics_metadata (cfg : Settings) (env : EnvInfo) (s : RecordingState) :
    extractTopics (metadataLines cfg env s) = cfg.topics.map (fun t => t.toList) := by
  have d1 : ((mline "bag_name: " s.bag_name) != topicsMarker) = true := by
    rw [bne_iff_ne]
    exact mline_ne_marker _ _ (by decide) (by decide)
  have d2 : ((mline "bag_path: " cfg.bag_path) != topicsMarker) = true := by
    rw [bne_iff_ne]
    exact mline_ne_marker _ _ (by decide) (by decide)
  have d3 : ((mline "date: " env.date) != topicsMarker) = true := by
    rw [bne_iff_ne]
    exact mline_ne_marker _ _ (by decide) (by decide)
  have d4 : ((mline "hostname: " env.hostname) != topicsMarker) = true := by
    rw [bne_iff_ne]
    exact mline_ne_marker _ _ (by decide) (by decide)
  have d5 : ((mline "user: " env.user) != topicsMarker) = true := by
    rw [bne_iff_ne]
    exact mline_ne_marker _ _ (by decide) (by decide)
  have d6 : ((mline "ros_distro: " env.ros_distro) != topicsMarker) = true := by
    rw [bne_iff_ne]
    exact mline_ne_marker _ _ (by decide) (by decide)
  have d7 : ((mline "kernel: " env.kernel) != topicsMarker) = true := by
    rw [bne_iff_ne]
    exact mline_ne_marker _ _ (by decide) (by decide)
  have dm : (topicsMarker != topicsMarker) = false := by simp
  have hall : ∀ a ∈ cfg.topics.map (fun t => topicIndent ++ t.toList),
      topicIndent.isPrefixOf a = true := by
    intro a ha
    obtain ⟨t, _, rfl⟩ := List.mem_map.mp ha
    exact List.isPrefixOf_iff_prefix.mpr (List.prefix_append _ _)
  unfold extractTopics metadataLines
  simp only [List.cons_append, List.nil_append, List.dropWhile_cons, d1, d2, d3, d4, d5, d6, d7,
             dm, Bool.false_eq_true, if_true, if_false, List.drop_one, List.tail_cons]
  rw [takeWhile_append_stop _ _ _ _ hall (not_topic_line_storage _)]
  rw [List.map_map]
  apply List.map_congr_left
  intro t _
  show (topicIndent ++ t.toList).drop 4 = t.toList
  rw [show (4 : Nat) = topicIndent.length from rfl, List.drop_left]

/-! ### Concrete sample values used by counterexamples and witnesses -/

/-- A resolved configuration with two topics, MCAP and compression on. -/
def cfg0 : Settings :=
  ⟨["/camera/image", "/imu"], "/data/bags", "", true, true, false, none, 0, 0⟩

/-- A resolved configuration whose topic list is empty. -/
def cfgEmpty : Settings :=
  ⟨[], "/data/bags", "", false, false, false, none, 0, 0⟩

/-- A fixed environment snapshot. -/
def env0 : EnvInfo :=
  ⟨"2025-01-01T00:00:00", "robot-host", "agi", "humble", "6.8.0-generic", 1735689600⟩

/-- A recording state as a detached `start()` persists it. -/
def st0 : RecordingState :=
  ⟨4242, "agi_log_20250101_000000", "/data/bags/agi_log_20250101_000000", 1735689600,
   ["ros2", "bag", "record", "-o", "/data/bags/agi_log_20250101_000000",
    "/camera/image", "/imu"]⟩

/-- A store holding `st0`'s record (a stale record once its pid is dead). -/
def stale0 : StoreFile := write_state st0

/-! ### Claim C1 -/

/-- C1 (counterexample): on a controller whose State Store holds no record,
`stop()` does not return silently — `stop_recording` with an absent store
is the raise of `NoActiveSessionError` ("No active recording found"), so
the claim as stated is false (in particular the timer's deferred `stop()`
raises inside its timer thread in this situation). -/
theorem stop_on_empty_store_raises :
    stop_recording cfg0 env0 none (fun _ _ => false) =
      ⟨.error .noActiveSession, none, []⟩ := rfl

/-- C1 (amended): `stop()` on a store holding no decodable record raises
`NoActiveSessionError` and leaves everything untouched; the "already
stopped must not raise" behaviour holds exactly when a record is present
but its process is already dead (signal delivery fails): then `stop()`
clears the store and returns successfully, writing no manifest. -/
theorem stop_amended_behavior (cfg : Settings) (env : EnvInfo) (store : StoreFile)
    (liveAt : Nat → Int → Bool) :
    (read_state store = none →
       stop_recording cfg env store liveAt = ⟨.error .noActiveSession, store, []⟩)
  ∧ (∀ s, read_state store = some s → liveAt 0 s.pid = false →
       stop_recording cfg env store liveAt = ⟨.ok (), none, []⟩) := by
  constructor
  · intro h
    unfold stop_recording
    rw [h]
  · intro s hs hdead
    simp only [stop_recording, hs, hdead, Bool.false_eq_true, if_false]
    rfl

/-- C1 (witness): both amended branches at concrete inputs. -/
theorem stop_amended_behavior_witness :
    stop_recording cfg0 env0 none (fun _ _ => false) = ⟨.error .noActiveSession, none, []⟩ ∧
    stop_recording cfg0 env0 stale0 (fun _ _ => false) = ⟨.ok (), none, []⟩ :=
  ⟨(stop_amended_behavior cfg0 env0 none (fun _ _ => false)).1 rfl,
   (stop_amended_behavior cfg0 env0 stale0 (fun _ _ => false)).2 st0 rfl rfl⟩

/-! ### Claim C2 -/

/-- C2 (counterexample): the stop path that finds the recorded process
already dead (the `os.kill` signal raising `OSError`) clears the store and
returns without writing any manifest — so "every stop path, including
stopping a process that has already died, writes exactly one metadata
manifest" is false at this input. -/
theorem stop_dead_process_writes_no_manifest :
    stop_recording cfg0 env0 stale0 (fun _ _ => false) = ⟨.ok (), none, []⟩ := rfl

/-- C2 (amended): a stop that finds a record and successfully delivers the
stop signal writes exactly one manifest beside the artifact whose recorded
topic list is the settings' topic list verbatim, and the attached start
path does the same; the already-dead stop path clears the record and
writes no manifest. -/
theorem manifest_on_stop_amended (cfg : Settings) (env : EnvInfo) (store : StoreFile)
    (liveAt : Nat → Int → Bool) (s : RecordingState)
    (hread : read_state store = some s) :
    (liveAt 0 s.pid = true →
       (stop_recording cfg env store liveAt).manifests =
         [(pathJoin s.bag_path "metadata.txt", metadataLines cfg env s)] ∧
       (stop_recording cfg env store liveAt).manifests.map (fun m => extractTopics m.2) =
         [cfg.topics.map (fun t => t.toList)])
  ∧ (liveAt 0 s.pid = false → (stop_recording cfg env store liveAt).manifests = [])
  ∧ (∀ (live : Int → Bool) (qosExists : String → Bool) (ts : String) (pid : Int) (g : Bool),
       (is_recording store live).1 = false → cfg.topics ≠ [] →
       (start_recording cfg env store live qosExists ts true pid g).manifests.map
           (fun m => extractTopics m.2) = [cfg.topics.map (fun t => t.toList)]) := by
  refine ⟨?_, ?_, ?_⟩
  · intro hlive
    simp only [stop_recording, hread, hlive, if_true, List.map_cons, List.map_nil,
               write_metadata]
    exact ⟨trivial, by rw [extractTopics_metadata]⟩
  · intro hdead
    simp only [stop_recording, hread, hdead, Bool.false_eq_true, if_false]
  · intro live qosExists ts pid g hprobe htop
    simp only [start_recording, hprobe, Bool.false_eq_true, if_false, build_command,
               if_neg htop, if_true, List.map_cons, List.map_nil, write_metadata]
    rw [extractTopics_metadata]

/-- C2 (witness): the three amended branches at concrete inputs. -/
theorem manifest_on_stop_amended_witness :
    ((stop_recording cfg0 env0 stale0 (fun _ _ => true)).manifests.map
        (fun m => extractTopics m.2) = [cfg0.topics.map (fun t => t.toList)]) ∧
    (stop_recording cfg0 env0 stale0 (fun _ _ => false)).manifests = [] ∧
    ((start_recording cfg0 env0 stale0 (fun _ => false) (fun _ => false)
        "20250101_000000" true 7 false).manifests.map
        (fun m => extractTopics m.2) = [cfg0.topics.map (fun t => t.toList)]) :=
  ⟨((manifest_on_stop_amended cfg0 env0 stale0 (fun _ _ => true) st0 rfl).1 rfl).2,
   (manifest_on_stop_amended cfg0 env0 stale0 (fun _ _ => false) st0 rfl).2.1 rfl,
   (manifest_on_stop_amended cfg0 env0 stale0 (fun _ _ => false) st0 rfl).2.2
     (fun _ => false) (fun _ => false) "20250101_000000" 7 false rfl
     (by decide)⟩

/-! ### Claim C8 -/

/-- C8: for every persisted file content whose `json.loads`-and-decode
body raises (unparseable text, a non-object value, a partial record with
missing keys, or unconvertible field values), `read()` returns "absent"
instead of propagating the failure, and an absent file also reads as
absent — corruption is never fatal to the caller. -/
theorem corrupt_state_reads_absent (t : FileText) (h : loadAndDecode t = .error ()) :
    read_state (some t) = none ∧ read_state none = none := by
  constructor
  · simp only [read_state, h]
  · rfl

/-- C8 (witness): a partial record (object with only a `pid` key) reads
as absent. -/
theorem corrupt_state_reads_absent_witness :
    read_state (some (.parsed (.jobj [("pid", Json.jnum 3)]))) = none :=
  (corrupt_state_reads_absent (.parsed (.jobj [("pid", Json.jnum 3)])) rfl).1

/-! ### Claim C9 -/

/-- C9: for every store record whose pid the liveness probe reports dead,
the next `isActive()` call clears the store as a side effect and returns
false; an absent store yields false with the store left absent (no side
effects). -/
theorem stale_record_lazy_cleanup (store : StoreFile) (live : Int → Bool)
    (s : RecordingState) (hread : read_state store = some s)
    (hdead : live s.pid = false) :
    is_recording store live = (false, none) ∧ is_recording none live = (false, none) := by
  constructor
  · simp only [is_recording, hread, hdead, Bool.false_eq_true, if_false]
    rfl
  · rfl

/-- C9 (witness): the stale record `st0` with a dead-process oracle. -/
theorem stale_record_lazy_cleanup_witness :
    is_recording stale0 (fun _ => false) = (false, none) :=
  (stale_record_lazy_cleanup stale0 (fun _ => false) st0 rfl rfl).1

/-! ### Claim C3 -/

/-- C3 (counterexample): the packaged sender (`tcp_transfer.send_file`)
with an absent source file raises `TcpTransferError` before binding any
socket and accepts no connection at all — it never sends a per-connection
error string — so the claim is false for this sender invocation. -/
theorem packaged_sender_raises_upfront :
    send_file none ["READY".toList] = ([], .error .fileNotFound) := rfl

/-- C3 (amended): when the source file is absent, the standalone sender
script (`file_server.send_file`) sends the `ERROR: File not found.` string
on each accepted connection, closes it without streaming any payload, and
keeps serving subsequent connections; the packaged sender
(`tcp_transfer.send_file`) instead raises `TransferError` upfront, before
opening its listening socket, and accepts no connection. -/
theorem absent_source_sender_behavior :
    (∀ conns, fs_send_file none conns =
        conns.map (fun _ => ⟨some fsErrorText, none, [], true⟩))
  ∧ (∀ conns, send_file none conns = ([], .error .fileNotFound)) :=
  ⟨fun _ => rfl, fun _ => rfl⟩

/-! ### Claim C4 -/

/-- C4: whenever `isActive()` reports an active session, both the CLI
send path and the CLI receive path fail with `TransferDisabledError`
with no network event — no socket is opened and no transfer proceeds;
the store is left exactly as the liveness probe left it. -/
theorem transfer_gate_blocks_when_active (store : StoreFile) (live : Int → Bool)
    (filePath : String) (file : Option SrcFile) (conns : List (List Char))
    (metadata : List Char) (stream : List (List Nat))
    (h : (is_recording store live).1 = true) :
    tcp_send_cli store live filePath file conns =
      ((is_recording store live).2, [], .error .transferDisabled) ∧
    tcp_receive_cli store live metadata stream =
      ((is_recording store live).2, [], .error .transferDisabled) := by
  constructor
  · simp only [tcp_send_cli, h, if_true]
  · simp only [tcp_receive_cli, h, if_true]

/-- C4 (witness): a live record blocks both transfer directions. -/
theorem transfer_gate_blocks_when_active_witness :
    tcp_send_cli stale0 (fun _ => true) "bag.mcap" none [] =
      (stale0, [], .error .transferDisabled) ∧
    tcp_receive_cli stale0 (fun _ => true) [] [] =
      (stale0, [], .error .transferDisabled) :=
  transfer_gate_blocks_when_active stale0 (fun _ => true) "bag.mcap" none [] [] [] rfl

/-! ### Claim C5 -/

/-- C5: for every source file whose name lets the handshake complete (it
contains no colon and does not start with the `ERROR` sentinel), one full
send/receive cycle — the sender's metadata line, the `READY`
acknowledgment, the 32 KiB chunk stream, the receiver reading until the
declared byte count is reached or the peer closes — writes a destination
file bit-identical to the source, hence of exactly the declared size; the
receiver may see the payload re-segmented arbitrarily (`stream`), the
sender's own chunking being one such segmentation. -/
theorem transfer_roundtrip (f : SrcFile) (stream : List (List Nat))
    (hname : ':' ∉ f.name) (herr : ¬ "ERROR".toList <+: f.name)
    (hflat : stream.flatten = f.content) (hne : ∀ c ∈ stream, c ≠ []) :
    (handleConn f ("READY".toList)).payload.flatten = f.content ∧
    (∀ c ∈ (handleConn f ("READY".toList)).payload, c ≠ []) ∧
    receive_file (handleConn f ("READY".toList)).metadataSent stream =
      ⟨true, some (f.name, f.content), .ok ()⟩ ∧
    (∀ nm bs,
       (receive_file (handleConn f ("READY".toList)).metadataSent stream).fileWritten =
         some (nm, bs) → bs.length = f.content.length) := by
  have hds : ':' ∉ natToDigits f.content.length := fun hmem =>
    absurd (natToDigits_digits _ ':' hmem) (by decide)
  have hpayload : (handleConn f ("READY".toList)).payload = chunksOf BUFFER_SIZE f.content := by
    simp [handleConn]
  have hmeta : (handleConn f ("READY".toList)).metadataSent =
      f.name ++ ':' :: natToDigits f.content.length := rfl
  have hr := recvLoop_exact stream 0 hne
  rw [hflat, zero_add] at hr
  have hrecv : receive_file (handleConn f ("READY".toList)).metadataSent stream =
      ⟨true, some (f.name, f.content), .ok ()⟩ := by
    rw [hmeta]
    simp only [receive_file,
               not_error_prefix_metadata f.name (natToDigits f.content.length) herr,
               Bool.false_eq_true, if_false,
               splitOnColon_sep f.name (natToDigits f.content.length) hname hds,
               pyInt_natToDigits, hr]
  refine ⟨?_, ?_, hrecv, ?_⟩
  · rw [hpayload]
    exact chunksOf_flatten BUFFER_SIZE (by decide) f.content
  · rw [hpayload]
    exact chunksOf_mem_ne_nil BUFFER_SIZE f.content
  · intro nm bs hw
    rw [hrecv] at hw
    injection hw with hw2
    injection hw2 with h1 h2
    rw [← h2]

/-- A concrete source file for the C5 witness. -/
def file0 : SrcFile := ⟨"session.mcap".toList, [1, 2, 3, 4]⟩

/-- C5 (witness): a four-byte file crosses a re-segmented wire intact. -/
theorem transfer_roundtrip_witness :
    receive_file (handleConn file0 ("READY".toList)).metadataSent [[1, 2], [3, 4]] =
      ⟨true, some (file0.name, file0.content), .ok ()⟩ :=
  (transfer_roundtrip file0 [[1, 2], [3, 4]] (by decide) (by decide) (by decide)
    (by decide)).2.2.1

/-! ### Claim C6 -/

/-- C6 (counterexample): with an empty topic list and a stale record in
the store, `start()` does fail with `ConfigurationError`, but the store is
not left unchanged — the entry liveness probe has already cleared the
stale record — so "leaves the State Store unchanged" is false at this
input. -/
theorem empty_topics_start_clears_stale_record :
    (start_recording cfgEmpty env0 stale0 (fun _ => false) (fun _ => false)
        "20250101_000000" false 77 false).result = .error .configuration ∧
    (start_recording cfgEmpty env0 stale0 (fun _ => false) (fun _ => false)
        "20250101_000000" false 77 false).store = none ∧
    stale0 ≠ none :=
  ⟨rfl, rfl, Option.some_ne_none _⟩

/-- C6 (amended): for all resolved settings with an empty topic list and
every store on which the entry liveness probe reports no active session,
`start()` fails with `ConfigurationError`, launches nothing, writes no
manifest and no record, and leaves the store exactly as the probe left it
(an absent store stays absent; a stale record has been cleared by that
probe's lazy cleanup).  (When the probe reports an active session the
failure is `AlreadyActiveError` instead.) -/
theorem empty_topics_start_amended (cfg : Settings) (env : EnvInfo) (store : StoreFile)
    (live : Int → Bool) (qosExists : String → Bool) (ts : String) (fg : Bool)
    (pid : Int) (g : Bool)
    (htop : cfg.topics = []) (hprobe : (is_recording store live).1 = false) :
    start_recording cfg env store live qosExists ts fg pid g =
      ⟨.error .configuration, (is_recording store live).2, [], false, false⟩ := by
  simp only [start_recording, hprobe, Bool.false_eq_true, if_false, build_command, htop,
             if_pos, if_true]

/-- C6 (witness): the amended statement at the counterexample's input. -/
theorem empty_topics_start_amended_witness :
    start_recording cfgEmpty env0 stale0 (fun _ => false) (fun _ => false)
        "20250101_000000" false 77 false =
      ⟨.error .configuration, none, [], false, false⟩ :=
  empty_topics_start_amended cfgEmpty env0 stale0 (fun _ => false) (fun _ => false)
    "20250101_000000" false 77 false rfl rfl

/-! ### Claim C7 -/

/-- C7: with binary storage (`mcap`) disabled and a non-empty topic list,
the built argument vector is the base invocation plus QoS, size and topic
arguments — no compression flags are emitted regardless of the compression
setting (any compression-flag string could only occur as smuggled data:
the output path, the QoS path, a size argument, or a topic); and with
binary storage and compression both enabled the storage flags are appended
immediately before the compression flags. -/
theorem compression_requires_mcap (cfg : Settings) (qosExists : String → Bool)
    (path : String) (htop : cfg.topics ≠ []) :
    (cfg.mcap = false →
       (∀ b : Bool, build_command {cfg with compress := b} qosExists path =
          .ok (["ros2", "bag", "record", "-o", path]
            ++ qosFlags cfg qosExists ++ sizeFlags cfg ++ cfg.topics)) ∧
       (∀ x ∈ compressionFlags, x ≠ path → x ∉ qosFlags cfg qosExists →
          x ∉ sizeFlags cfg → x ∉ cfg.topics →
          ∀ l, build_command cfg qosExists path = .ok l → x ∉ l))
  ∧ (cfg.mcap = true → cfg.compress = true →
       build_command cfg qosExists path =
         .ok (["ros2", "bag", "record", "-o", path, "--storage", "mcap",
               "--compression-mode", "file", "--compression-format", "zstd"]
            ++ qosFlags cfg qosExists ++ sizeFlags cfg ++ cfg.topics)) := by
  constructor
  · intro hmcap
    constructor
    · intro b
      simp [build_command, storageFlags, qosFlags, sizeFlags, hmcap, htop]
    · intro x hx hpath hqos hsize htopics l hl hmem
      rw [build_command, if_neg htop] at hl
      have hl2 := Except.ok.inj hl
      subst hl2
      simp only [storageFlags, hmcap, Bool.false_eq_true, if_false, List.append_nil,
                 List.mem_append, List.mem_cons, List.not_mem_nil, or_false] at hmem
      rcases hmem with (((e | e | e | e | e) | hm) | hm) | hm
      · subst e; exact absurd hx (by decide)
      · subst e; exact absurd hx (by decide)
      · subst e; exact absurd hx (by decide)
      · subst e; exact absurd hx (by decide)
      · exact hpath e
      · exact hqos hm
      · exact hsize hm
      · exact htopics hm
  · intro hmcap hcomp
    simp [build_command, storageFlags, compressionFlags, hmcap, hcomp, htop]

/-- C7 (witness): both branches at concrete settings. -/
theorem compression_requires_mcap_witness :
    (build_command {cfg0 with mcap := false, compress := true} (fun _ => false) "/d" =
       .ok (["ros2", "bag", "record", "-o", "/d"]
         ++ qosFlags {cfg0 with mcap := false} (fun _ => false)
         ++ sizeFlags {cfg0 with mcap := false} ++ ({cfg0 with mcap := false} : Settings).topics)) ∧
    (build_command cfg0 (fun _ => false) "/d" =
       .ok (["ros2", "bag", "record", "-o", "/d", "--storage", "mcap",
             "--compression-mode", "file", "--compression-format", "zstd"]
         ++ qosFlags cfg0 (fun _ => false) ++ sizeFlags cfg0 ++ cfg0.topics)) :=
  ⟨((compression_requires_mcap {cfg0 with mcap := false} (fun _ => false) "/d"
      (by decide)).1 rfl).1 true,
   (compression_requires_mcap cfg0 (fun _ => false) "/d" (by decide)).2 rfl rfl⟩

/-! ### Claim C10 -/

/-- C10 (counterexample): the metadata line `a: 7` is not of the form
`<name>:<decimal integer>` — its size field carries a leading space — yet
the receiver raises nothing: Python's `int()` strips the whitespace, so
`receive_file` sends `READY` and creates the destination file (here empty,
the peer having closed).  The claim as stated is therefore false. -/
theorem metadata_whitespace_size_accepted :
    receive_file ("a: 7".toList) [] = ⟨true, some ("a".toList, []), .ok ()⟩ := rfl

/-- C10 (amended): for every received metadata line that does not start
with `ERROR` and does not split on `:` into exactly two pieces whose
second piece the runtime's integer conversion accepts (`int()`: optional
surrounding whitespace, an optional sign, digits with single underscores
between them), both receivers raise an exception that is not
`TransferError` — a `ValueError` — before sending the `READY`
acknowledgment and before creating any destination file. -/
theorem malformed_metadata_raises_amended (metadata : List Char) (stream : List (List Nat))
    (herr : ("ERROR".toList.isPrefixOf metadata) = false)
    (hform : wellFormedMeta metadata = false) :
    receive_file metadata stream = ⟨false, none, .error .valueError⟩ ∧
    fc_receive_file metadata stream = ⟨false, none, .error ()⟩ := by
  rcases hsp : splitOnColon metadata with _ | ⟨a, _ | ⟨b, rest⟩⟩
  · constructor
    · simp only [receive_file, herr, Bool.false_eq_true, if_false, hsp]
    · simp only [fc_receive_file, herr, Bool.false_eq_true, if_false, hsp]
  · constructor
    · simp only [receive_file, herr, Bool.false_eq_true, if_false, hsp]
    · simp only [fc_receive_file, herr, Bool.false_eq_true, if_false, hsp]
  · cases rest with
    | nil =>
      have hwf : (pyInt b).isSome = false := by
        unfold wellFormedMeta at hform
        rw [hsp] at hform
        exact hform
      cases hpy : pyInt b with
      | some n =>
        rw [hpy] at hwf
        exact absurd hwf (by simp)
      | none =>
        constructor
        · simp only [receive_file, herr, Bool.false_eq_true, if_false, hsp, hpy]
        · simp only [fc_receive_file, herr, Bool.false_eq_true, if_false, hsp, hpy]
    | cons c rest2 =>
      constructor
      · simp only [receive_file, herr, Bool.false_eq_true, if_false, hsp]
      · simp only [fc_receive_file, herr, Bool.false_eq_true, if_false, hsp]

/-- C10 (witness): a file name containing `:` (the claim's own example)
aborts with `ValueError` before `READY` and before any file is created. -/
theorem malformed_metadata_raises_amended_witness :
    receive_file ("my:file:7".toList) [] = ⟨false, none, .error .valueError⟩ :=
  (malformed_metadata_raises_amended ("my:file:7".toList) [] (by decide) (by decide)).1

end AgiLogger
